import Mathlib

set_option maxHeartbeats 1000000

/-!
Shallow embedding of the streamlit site-cluster dashboard (src/app.py).

The table loaded from CSV is modelled as a list of records.  The cluster
ordering pipeline `_get_sorted_cluster_ids` (select the three cluster
columns, drop duplicate rows keeping the first occurrence, stable sort by
(cluster_type, cluster_rank) — pandas uses a stable lexsort for
multi-column sorts — filter to the requested cluster_type and take the
cluster ids in order of first appearance) is translated step by step.
Python list indexing (negative indices wrap, out-of-range raises
IndexError) is modelled by `pyListGet`, dict lookup failure by
`Except.error`.  Geographic coordinates only matter through presence or
absence in the properties below, so they are modelled as optional
integers; the folium map-centre computation (a floating-point mean handed
to an external library) is outside the model, which covers the marker set
the code builds.
-/

/-- A row of the loaded CSV table (columns of data/cluster_coords.csv). -/
structure Record where
  cluster_type : String
  cluster_id : String
  cluster_rank : Int
  cluster_name : String
  site_code : String
  zone_name : String
  latitude : Option Int
  longitude : Option Int
  deriving DecidableEq, Repr

/-- The 16 marker colors of app.py. -/
def COLOR_PALETTE : List String :=
  ["black", "red", "blue", "green", "purple", "orange", "darkred", "lightred",
   "beige", "darkblue", "darkgreen", "cadetblue", "darkpurple", "lightblue",
   "pink", "gray"]

/-- Python list indexing: a negative index wraps (counts from the end),
an index out of range raises IndexError. -/
def pyListGet (xs : List α) (i : Int) : Except String α :=
  let j : Int := if i < 0 then i + xs.length else i
  if 0 ≤ j then
    match xs.get? j.toNat with
    | some a => .ok a
    | none => .error ("IndexError: list index out of range")
  else
    .error ("IndexError: list index out of range")

/-- The marker-color lookup COLOR_PALETTE[rank] of display_map (app.py line 135). -/
def color_for_rank (r : Int) : Except String String := pyListGet COLOR_PALETTE r

/-- The (cluster_type, cluster_id, cluster_rank) projection of a row,
i.e. the column selection in _get_sorted_cluster_ids. -/
abbrev Triple := String × String × Int

def toTriple (r : Record) : Triple := (r.cluster_type, r.cluster_id, r.cluster_rank)

/-- Strict lexicographic comparison of character sequences by code point,
the order in which pandas compares Python strings. -/
def charListLtb : List Char → List Char → Bool
  | [], [] => false
  | [], _ :: _ => true
  | _ :: _, [] => false
  | a :: as, b :: bs =>
    if a.toNat < b.toNat then true
    else if b.toNat < a.toNat then false
    else charListLtb as bs

/-- Strict lexicographic comparison of strings by code point. -/
def strLtb (a b : String) : Bool := charListLtb a.data b.data

/-- The sort key order of sort_values(by=["cluster_type", "cluster_rank"]):
lexicographic on (cluster_type, cluster_rank). -/
def tripleLE (a b : Triple) : Prop :=
  strLtb a.1 b.1 = true ∨ (a.1 = b.1 ∧ a.2.2 ≤ b.2.2)

instance : DecidableRel tripleLE := fun a b => by
  unfold tripleLE
  exact inferInstance


/-- Deduplication keeping the first occurrence of each key, as
drop_duplicates / Series.unique do in pandas. -/
def dedupByFirst (key : α → β) [DecidableEq β] : List α → List α
  | [] => []
  | a :: l => a :: (dedupByFirst key l).filter (fun b => decide (key b ≠ key a))

/-- df[["cluster_type", "cluster_id", "cluster_rank"]].drop_duplicates() -/
def dedupTriples (df : List Record) : List Triple :=
  dedupByFirst id (df.map toTriple)

/-- ... .sort_values(by=["cluster_type", "cluster_rank"]) — a stable sort
by the lexicographic key (pandas lexsort for multi-column sorts). -/
def sortedTriples (df : List Record) : List Triple :=
  List.insertionSort tripleLE (dedupTriples df)

/-- _get_sorted_cluster_ids of app.py: the deduplicated, rank-sorted
cluster ids of the given cluster_type, in order of first appearance. -/
def _get_sorted_cluster_ids (df : List Record) (cluster_type : String) : List String :=
  dedupByFirst id
    (((sortedTriples df).filter (fun t => t.1 == cluster_type)).map (fun t => t.2.1))

/-- The per-cluster (cluster_id, cluster_rank) table behind
_get_sorted_cluster_ids, used to relate legend positions to ranks. -/
def clusterTable (df : List Record) (cluster_type : String) : List (String × Int) :=
  dedupByFirst Prod.fst
    (((sortedTriples df).filter (fun t => t.1 == cluster_type)).map (fun t => t.2))

/-- The loop of display_legend: the i-th cluster id in sort order is
painted COLOR_PALETTE[i] (positional indexing via enumerate). -/
def display_legend_loop : Nat → List String → Except String (List (String × String))
  | _, [] => .ok []
  | i, cid :: rest =>
    match pyListGet COLOR_PALETTE (Int.ofNat i) with
    | .error e => .error e
    | .ok c =>
      match display_legend_loop (i + 1) rest with
      | .error e => .error e
      | .ok l => .ok ((c, cid) :: l)

/-- display_legend of app.py, as the list of (swatch color, cluster id)
entries it writes to the sidebar. -/
def display_legend (df : List Record) (cluster_type : String) :
    Except String (List (String × String)) :=
  display_legend_loop 0 (_get_sorted_cluster_ids df cluster_type)

/-- A circle marker placed on the folium map by display_map. -/
structure Marker where
  latitude : Option Int
  longitude : Option Int
  color : String
  site_code : String
  zone_name : String
  cluster_name : String
  cluster_id : String
  deriving DecidableEq, Repr

def mkMarker (r : Record) (c : String) : Marker :=
  ⟨r.latitude, r.longitude, c, r.site_code, r.zone_name, r.cluster_name, r.cluster_id⟩

/-- The row-filtering stage of display_map: drop rows with missing
longitude, keep the selected cluster_type, and apply the cluster_id
filter only when the selection is truthy (a non-empty list). -/
def display_map_sites (df : List Record) (cluster_type : String)
    (cluster_id : Option (List String)) : List Record :=
  let geo := df.filter (fun r => !r.longitude.isNone)
  let typed := geo.filter (fun r => r.cluster_type == cluster_type)
  match cluster_id with
  | none => typed
  | some ids =>
    if ids.isEmpty then typed else typed.filter (fun r => ids.contains r.cluster_id)

/-- The marker loop of display_map: each remaining row becomes a marker
colored COLOR_PALETTE[cluster_rank]; an out-of-range rank raises. -/
def renderMarkers : List Record → Except String (List Marker)
  | [] => .ok []
  | r :: rs =>
    match pyListGet COLOR_PALETTE r.cluster_rank with
    | .error e => .error e
    | .ok c =>
      match renderMarkers rs with
      | .error e => .error e
      | .ok ms => .ok (mkMarker r c :: ms)

/-- display_map of app.py as the list of markers it draws. -/
def display_map (df : List Record) (cluster_type : String)
    (cluster_id : Option (List String)) : Except String (List Marker) :=
  renderMarkers (display_map_sites df cluster_type cluster_id)

/-- The fixed cluster_type → image file mapping of display_resumes. -/
def img_mapping : List (String × String) :=
  [("normalized time-series kmeans", "cluster_plots.png")]

/-- display_resumes of app.py: Python dict lookup img_mapping[cluster_type]
joined with the img directory; a missing key raises KeyError. -/
def display_resumes (cluster_type : String) : Except String String :=
  match img_mapping.find? (fun p => p.1 == cluster_type) with
  | some p => .ok ("img/" ++ p.2)
  | none => .error ("KeyError: " ++ cluster_type)

/-- Decidable equality of results, so that concrete runs can be checked
by evaluation. -/
instance [DecidableEq ε] [DecidableEq α] : DecidableEq (Except ε α) := fun a b =>
  match a, b with
  | .ok x, .ok y =>
    if h : x = y then isTrue (by rw [h]) else isFalse (fun hc => h (Except.ok.inj hc))
  | .error x, .error y =>
    if h : x = y then isTrue (by rw [h]) else isFalse (fun hc => h (Except.error.inj hc))
  | .ok _, .error _ => isFalse (fun hc => Except.noConfusion hc)
  | .error _, .ok _ => isFalse (fun hc => Except.noConfusion hc)

/-- The rows of the worked scenario in the specification: two records of
cluster_type "A", cluster ids "1" and "2", cluster ranks 2 and 0. -/
def rowA1 : Record := ⟨"A", "1", 2, "cluster one", "S1", "Z1", some 10, some 20⟩

def rowA2 : Record := ⟨"A", "2", 0, "cluster two", "S2", "Z2", some 11, some 21⟩

/-- A record of cluster_type "A" without geolocation (longitude missing). -/
def rowNoGeo : Record := ⟨"A", "3", 1, "cluster three", "S3", "Z3", none, none⟩

/-- Three clusters of cluster_type "B" carrying the non-contiguous rank
set {0, 5, 7} discussed in the design notes of the specification. -/
def rowB0 : Record := ⟨"B", "a", 0, "cluster a", "S4", "Z4", some 1, some 1⟩

def rowB5 : Record := ⟨"B", "b", 5, "cluster b", "S5", "Z5", some 2, some 2⟩

def rowB7 : Record := ⟨"B", "c", 7, "cluster c", "S6", "Z6", some 3, some 3⟩

/-! ## Order-theoretic facts about the sort key -/

theorem charListLtb_trichotomy :
    ∀ l m : List Char, charListLtb l m = true ∨ l = m ∨ charListLtb m l = true
  | [], [] => Or.inr (Or.inl rfl)
  | [], _ :: _ => Or.inl rfl
  | _ :: _, [] => Or.inr (Or.inr rfl)
  | a :: as, b :: bs => by
    rcases Nat.lt_trichotomy a.toNat b.toNat with h | h | h
    · exact Or.inl (by simp [charListLtb, h])
    · have hab : a = b := Char.eq_of_val_eq (UInt32.toNat.inj h)
      subst hab
      rcases charListLtb_trichotomy as bs with h2 | h2 | h2
      · exact Or.inl (by simp [charListLtb, h2])
      · exact Or.inr (Or.inl (by rw [h2]))
      · exact Or.inr (Or.inr (by simp [charListLtb, h2]))
    · exact Or.inr (Or.inr (by simp [charListLtb, h, Nat.lt_asymm h]))

theorem charListLtb_trans :
    ∀ l m k : List Char, charListLtb l m = true → charListLtb m k = true →
      charListLtb l k = true
  | [], [], _, h1, _ => by simp [charListLtb] at h1
  | [], _ :: _, [], _, h2 => by simp [charListLtb] at h2
  | [], _ :: _, _ :: _, _, _ => rfl
  | _ :: _, [], _, h1, _ => by simp [charListLtb] at h1
  | _ :: _, _ :: _, [], _, h2 => by simp [charListLtb] at h2
  | a :: as, b :: bs, c :: cs, h1, h2 => by
    simp only [charListLtb] at h1 h2 ⊢
    by_cases hab : a.toNat < b.toNat
    · by_cases hbc : b.toNat < c.toNat
      · have hac : a.toNat < c.toNat := by omega
        simp [hac]
      · by_cases hcb : c.toNat < b.toNat
        · simp [hbc, hcb] at h2
        · have hac : a.toNat < c.toNat := by omega
          simp [hac]
    · by_cases hba : b.toNat < a.toNat
      · simp [hab, hba] at h1
      · simp only [hab, hba, if_false] at h1
        by_cases hbc : b.toNat < c.toNat
        · have hac : a.toNat < c.toNat := by omega
          simp [hac]
        · by_cases hcb : c.toNat < b.toNat
          · simp [hbc, hcb] at h2
          · simp only [hbc, hcb, if_false] at h2
            have h3 : ¬ a.toNat < c.toNat := by omega
            have h4 : ¬ c.toNat < a.toNat := by omega
            simp only [h3, h4, if_false]
            exact charListLtb_trans as bs cs h1 h2

theorem strLtb_trichotomy (a b : String) :
    strLtb a b = true ∨ a = b ∨ strLtb b a = true := by
  unfold strLtb
  rcases charListLtb_trichotomy a.data b.data with h | h | h
  · exact Or.inl h
  · refine Or.inr (Or.inl ?_)
    cases a; cases b
    exact congrArg String.mk h
  · exact Or.inr (Or.inr h)

theorem strLtb_trans {a b c : String} (h1 : strLtb a b = true) (h2 : strLtb b c = true) :
    strLtb a c = true :=
  charListLtb_trans a.data b.data c.data h1 h2

instance : IsTotal Triple tripleLE := ⟨by
  intro a b
  unfold tripleLE
  rcases strLtb_trichotomy a.1 b.1 with h | h | h
  · exact Or.inl (Or.inl h)
  · rcases le_total a.2.2 b.2.2 with h2 | h2
    · exact Or.inl (Or.inr ⟨h, h2⟩)
    · exact Or.inr (Or.inr ⟨h.symm, h2⟩)
  · exact Or.inr (Or.inl h)⟩

instance : IsTrans Triple tripleLE := ⟨by
  intro a b c hab hbc
  unfold tripleLE at hab hbc ⊢
  rcases hab with h1 | ⟨h1, h1r⟩ <;> rcases hbc with h2 | ⟨h2, h2r⟩
  · exact Or.inl (strLtb_trans h1 h2)
  · exact Or.inl (h2 ▸ h1)
  · exact Or.inl (h1 ▸ h2)
  · exact Or.inr ⟨h1.trans h2, le_trans h1r h2r⟩⟩

theorem charListLtb_irrefl : ∀ l : List Char, charListLtb l l = false
  | [] => rfl
  | a :: l => by simp [charListLtb, charListLtb_irrefl l]

theorem strLtb_irrefl (a : String) : strLtb a a = false := charListLtb_irrefl a.data

theorem tripleLE_of_eq_keys {a b : Triple} (h1 : a.1 = b.1) (h2 : a.2.2 = b.2.2) :
    tripleLE a b :=
  Or.inr ⟨h1, le_of_eq h2⟩

theorem rank_le_of_tripleLE {a b : Triple} (hab : tripleLE a b) (h : a.1 = b.1) :
    a.2.2 ≤ b.2.2 := by
  rcases hab with hlt | ⟨_, hle⟩
  · rw [h] at hlt
    rw [strLtb_irrefl] at hlt
    exact absurd hlt (by simp)
  · exact hle

/-! ## Facts about dedupByFirst -/

theorem dedupByFirst_sublist (key : α → β) [DecidableEq β] :
    ∀ l : List α, List.Sublist (dedupByFirst key l) l
  | [] => List.Sublist.refl _
  | a :: l => by
    simp only [dedupByFirst]
    exact ((List.filter_sublist _).trans (dedupByFirst_sublist key l)).cons₂ a

theorem mem_dedupByFirst_id [DecidableEq α] :
    ∀ (l : List α) (x : α), x ∈ dedupByFirst id l ↔ x ∈ l
  | [], x => Iff.rfl
  | a :: l, x => by
    simp only [dedupByFirst, List.mem_cons, List.mem_filter, mem_dedupByFirst_id l,
      id_eq, decide_eq_true_eq]
    by_cases hx : x = a <;> simp [hx]

theorem nodup_map_key_dedupByFirst (key : α → β) [DecidableEq β] :
    ∀ l : List α, ((dedupByFirst key l).map key).Nodup
  | [] => List.nodup_nil
  | a :: l => by
    simp only [dedupByFirst, List.map_cons, List.nodup_cons]
    constructor
    · intro hmem
      obtain ⟨b, hb, hkey⟩ := List.mem_map.mp hmem
      have := (List.mem_filter.mp hb).2
      simp only [decide_eq_true_eq] at this
      exact this hkey
    · exact ((List.filter_sublist _).map key).nodup (nodup_map_key_dedupByFirst key l)

theorem nodup_dedupByFirst_id [DecidableEq α] (l : List α) : (dedupByFirst id l).Nodup := by
  have h := nodup_map_key_dedupByFirst id l
  rwa [List.map_id] at h

/-- Keep-first key deduplication commutes with projecting to the key. -/
theorem map_fst_dedupByFirst :
    ∀ l : List (String × Int),
      (dedupByFirst Prod.fst l).map Prod.fst = dedupByFirst id (l.map Prod.fst)
  | [] => rfl
  | p :: l => by
    simp only [dedupByFirst, List.map_cons]
    congr 1
    rw [← map_fst_dedupByFirst l, List.filter_map]
    rfl

/-! ## Stability of the sort -/

theorem filter_orderedInsert_of_pos (p : Triple → Bool) (a : Triple) (ha : p a = true)
    (hcomp : ∀ b, ¬ tripleLE a b → p b = false) :
    ∀ l : List Triple, (List.orderedInsert tripleLE a l).filter p = a :: l.filter p
  | [] => by simp [List.orderedInsert, List.filter_cons, ha]
  | b :: l => by
    simp only [List.orderedInsert]
    by_cases h : tripleLE a b
    · rw [if_pos h, List.filter_cons, if_pos ha]
    · rw [if_neg h, List.filter_cons, List.filter_cons, hcomp b h,
        filter_orderedInsert_of_pos p a ha hcomp l]
      simp

theorem filter_orderedInsert_of_neg (p : Triple → Bool) (a : Triple) (ha : p a = false) :
    ∀ l : List Triple, (List.orderedInsert tripleLE a l).filter p = l.filter p
  | [] => by simp [List.orderedInsert, List.filter_cons, ha]
  | b :: l => by
    simp only [List.orderedInsert]
    by_cases h : tripleLE a b
    · rw [if_pos h, List.filter_cons, ha]
      simp
    · rw [if_neg h, List.filter_cons, List.filter_cons,
        filter_orderedInsert_of_neg p a ha l]

/-- A stable sort leaves the subsequence of mutually tied elements
unchanged: filtering by any predicate that only selects elements tied
under the sort key commutes with sorting. -/
theorem filter_insertionSort (p : Triple → Bool)
    (hp : ∀ a b, p a = true → p b = true → tripleLE a b) :
    ∀ l : List Triple, (List.insertionSort tripleLE l).filter p = l.filter p
  | [] => rfl
  | a :: l => by
    simp only [List.insertionSort]
    by_cases ha : p a = true
    · have hcomp : ∀ b, ¬ tripleLE a b → p b = false := by
        intro b hb
        by_contra hpb
        rw [Bool.not_eq_false] at hpb
        exact hb (hp a b ha hpb)
      rw [filter_orderedInsert_of_pos p a ha hcomp, filter_insertionSort p hp l,
        List.filter_cons, if_pos ha]
    · rw [Bool.not_eq_true] at ha
      rw [filter_orderedInsert_of_neg p a ha, filter_insertionSort p hp l,
        List.filter_cons, ha]
      simp

/-! ## Membership along the pipeline -/

theorem mem_sortedTriples_iff (df : List Record) (t : Triple) :
    t ∈ sortedTriples df ↔ t ∈ df.map toTriple := by
  unfold sortedTriples dedupTriples
  rw [List.mem_insertionSort, mem_dedupByFirst_id]

theorem mem_sorted_cluster_ids (df : List Record) (ct : String) (i : String) :
    i ∈ _get_sorted_cluster_ids df ct ↔
      ∃ r ∈ df, r.cluster_type = ct ∧ r.cluster_id = i := by
  unfold _get_sorted_cluster_ids
  rw [mem_dedupByFirst_id]
  simp only [List.mem_map, List.mem_filter, beq_iff_eq]
  constructor
  · rintro ⟨t, ⟨ht, hty⟩, hid⟩
    obtain ⟨r, hr, rfl⟩ := List.mem_map.mp ((mem_sortedTriples_iff df t).mp ht)
    exact ⟨r, hr, hty, hid⟩
  · rintro ⟨r, hr, hty, hid⟩
    refine ⟨toTriple r, ⟨?_, hty⟩, hid⟩
    exact (mem_sortedTriples_iff df _).mpr (List.mem_map_of_mem toTriple hr)

theorem mem_clusterTable (df : List Record) (ct : String) (p : String × Int)
    (hp : p ∈ clusterTable df ct) :
    ∃ r ∈ df, r.cluster_type = ct ∧ p.1 = r.cluster_id ∧ p.2 = r.cluster_rank := by
  unfold clusterTable at hp
  have hp2 := (dedupByFirst_sublist Prod.fst _).mem hp
  simp only [List.mem_map, List.mem_filter, beq_iff_eq] at hp2
  obtain ⟨t, ⟨ht, hty⟩, rfl⟩ := hp2
  obtain ⟨r, hr, rfl⟩ := List.mem_map.mp ((mem_sortedTriples_iff df t).mp ht)
  exact ⟨r, hr, hty, rfl, rfl⟩

theorem clusterTable_map_fst (df : List Record) (ct : String) :
    (clusterTable df ct).map Prod.fst = _get_sorted_cluster_ids df ct := by
  unfold clusterTable _get_sorted_cluster_ids
  rw [map_fst_dedupByFirst, List.map_map]
  rfl

theorem nodup_sorted_cluster_ids (df : List Record) (ct : String) :
    (_get_sorted_cluster_ids df ct).Nodup :=
  nodup_dedupByFirst_id _

/-- The cluster table is ordered by non-decreasing cluster_rank. -/
theorem clusterTable_rank_sorted (df : List Record) (ct : String) :
    (clusterTable df ct).Pairwise (fun p q => p.2 ≤ q.2) := by
  have hsorted : (sortedTriples df).Pairwise tripleLE :=
    List.sorted_insertionSort tripleLE (dedupTriples df)
  have hfil : ((sortedTriples df).filter (fun t => t.1 == ct)).Pairwise tripleLE :=
    hsorted.sublist (List.filter_sublist _)
  have hrank : ((sortedTriples df).filter (fun t => t.1 == ct)).Pairwise
      (fun a b : Triple => a.2.2 ≤ b.2.2) := by
    refine hfil.imp_of_mem ?_
    intro a b ha hb hab
    have hta := (List.mem_filter.mp ha).2
    have htb := (List.mem_filter.mp hb).2
    rw [beq_iff_eq] at hta htb
    exact rank_le_of_tripleLE hab (hta.trans htb.symm)
  have hmap : (((sortedTriples df).filter (fun t => t.1 == ct)).map
      (fun t : Triple => t.2)).Pairwise (fun p q : String × Int => p.2 ≤ q.2) :=
    List.pairwise_map.mpr hrank
  exact hmap.sublist (dedupByFirst_sublist Prod.fst _)

/-! ## Palette lookups -/

/-- Total accessor for palette entries, used to state what the lookups
return inside the 16-entry bounds. -/
def paletteAt (k : Nat) : String := COLOR_PALETTE.getD k ("")

theorem pyListGet_palette_nat (i : Nat) (h : i < 16) :
    pyListGet COLOR_PALETTE (Int.ofNat i) = .ok (paletteAt i) := by
  have hall : ∀ j : Fin 16, pyListGet COLOR_PALETTE (Int.ofNat j.val) = .ok (paletteAt j.val) := by
    decide
  exact hall ⟨i, h⟩

theorem color_for_rank_of_nonneg (r : Int) (h0 : 0 ≤ r) (h1 : r < 16) :
    color_for_rank r = .ok (paletteAt r.toNat) := by
  have hr : (Int.ofNat r.toNat) = r := Int.toNat_of_nonneg h0
  rw [color_for_rank, ← hr]
  exact pyListGet_palette_nat r.toNat (by omega)

theorem paletteAt_inj (i j : Nat) (hi : i < 16) (hj : j < 16)
    (h : paletteAt i = paletteAt j) : i = j := by
  have hall : ∀ a b : Fin 16, paletteAt a.val = paletteAt b.val → a = b := by decide
  have := hall ⟨i, hi⟩ ⟨j, hj⟩ h
  exact congrArg Fin.val this

/-! ## The legend loop -/

theorem display_legend_loop_ok :
    ∀ (ids : List String) (i : Nat), i + ids.length ≤ 16 →
      ∃ l, display_legend_loop i ids = .ok l ∧ l.length = ids.length ∧
        ∀ j (hj : j < ids.length), ∃ hl : j < l.length,
          l.get ⟨j, hl⟩ = (paletteAt (i + j), ids.get ⟨j, hj⟩)
  | [], i, _ => ⟨[], rfl, rfl, fun j hj => absurd hj (Nat.not_lt_zero j)⟩
  | cid :: rest, i, h => by
    have hi : i < 16 := by
      simp only [List.length_cons] at h
      omega
    obtain ⟨l0, hl0, hlen, hget⟩ :=
      display_legend_loop_ok rest (i + 1) (by simp only [List.length_cons] at h; omega)
    refine ⟨(paletteAt i, cid) :: l0, ?_, by simp [hlen], ?_⟩
    · rw [display_legend_loop, pyListGet_palette_nat i hi, hl0]
    · intro j hj
      match j with
      | 0 => exact ⟨by simp, by simp⟩
      | Nat.succ j2 =>
        have hj2 : j2 < rest.length := by simpa using hj
        obtain ⟨hl2, hval⟩ := hget j2 hj2
        refine ⟨by simpa using hl2, ?_⟩
        simpa [Nat.add_assoc, Nat.add_comm 1 j2, Nat.add_left_comm] using hval

theorem paletteAt_mem (k : Nat) (h : k < 16) : paletteAt k ∈ COLOR_PALETTE := by
  have hall : ∀ j : Fin 16, paletteAt j.val ∈ COLOR_PALETTE := by decide
  exact hall ⟨k, h⟩

theorem color_for_rank_error_of_ge (r : Int) (h : 16 ≤ r) :
    color_for_rank r = .error ("IndexError: list index out of range") := by
  have h1 : ¬ r < 0 := by omega
  have h2 : (0:Int) ≤ r := by omega
  have h3 : COLOR_PALETTE.get? r.toNat = none := by
    refine List.get?_eq_none.mpr ?_
    have hlen : COLOR_PALETTE.length = 16 := rfl
    omega
  simp only [color_for_rank, pyListGet, if_neg h1, if_pos h2, h3]

theorem color_for_rank_error_of_lt (r : Int) (h : r < -16) :
    color_for_rank r = .error ("IndexError: list index out of range") := by
  have hlen : ((COLOR_PALETTE.length : Nat) : Int) = 16 := rfl
  have h1 : r < 0 := by omega
  have h2 : ¬ (0:Int) ≤ r + (COLOR_PALETTE.length : Nat) := by
    rw [hlen]
    omega
  simp only [color_for_rank, pyListGet, if_pos h1, if_neg h2]

/-- Negative indices in [-16, -1] wrap around: Python evaluates them as
index 16 + r from the start of the palette. -/
theorem color_for_rank_wrap (r : Int) (h0 : -16 ≤ r) (h1 : r < 0) :
    color_for_rank r = color_for_rank (r + 16) := by
  have hlen : ((COLOR_PALETTE.length : Nat) : Int) = 16 := rfl
  have h2 : ¬ r + 16 < 0 := by omega
  have h3 : (0:Int) ≤ r + 16 := by omega
  simp only [color_for_rank, pyListGet, hlen, if_pos h1, if_neg h2, if_pos h3]

/-! ## The display_map row filters -/

theorem mem_display_map_sites (df : List Record) (ct : String)
    (sel : Option (List String)) (r : Record) (hr : r ∈ display_map_sites df ct sel) :
    r ∈ df ∧ r.longitude ≠ none ∧ r.cluster_type = ct := by
  have htyped : r ∈ (df.filter (fun s => !s.longitude.isNone)).filter
      (fun s => s.cluster_type == ct) := by
    simp only [display_map_sites] at hr
    rcases sel with _ | ids
    · exact hr
    · by_cases hi : ids.isEmpty <;> simp only [hi, if_true, if_false] at hr
      · exact hr
      · exact (List.mem_filter.mp hr).1
  obtain ⟨hgeo, hty⟩ := List.mem_filter.mp htyped
  obtain ⟨hdf, hlng⟩ := List.mem_filter.mp hgeo
  refine ⟨hdf, ?_, by rwa [beq_iff_eq] at hty⟩
  intro hcontra
  rw [hcontra] at hlng
  simp at hlng

theorem display_map_sites_subset (df : List Record) (ct : String) (ids : List String) :
    display_map_sites df ct (some ids) ⊆ display_map_sites df ct none := by
  intro r hr
  simp only [display_map_sites] at hr ⊢
  by_cases hi : ids.isEmpty <;> simp only [hi, if_true, if_false] at hr
  · exact hr
  · exact (List.mem_filter.mp hr).1

theorem display_map_sites_nil_of_no_match (df : List Record) (ct : String)
    (sel : Option (List String)) (h : ∀ r ∈ df, r.cluster_type ≠ ct) :
    display_map_sites df ct sel = [] := by
  have htyped : (df.filter (fun s => !s.longitude.isNone)).filter
      (fun s => s.cluster_type == ct) = [] := by
    refine List.filter_eq_nil_iff.mpr ?_
    intro a ha
    have hadf : a ∈ df := List.mem_of_mem_filter ha
    simpa [beq_iff_eq] using h a hadf
  simp only [display_map_sites, htyped]
  rcases sel with _ | ids
  · rfl
  · by_cases hi : ids.isEmpty <;> simp [hi]

theorem sorted_ids_nil_of_no_match (df : List Record) (ct : String)
    (h : ∀ r ∈ df, r.cluster_type ≠ ct) :
    _get_sorted_cluster_ids df ct = [] := by
  unfold _get_sorted_cluster_ids
  have hfil : (sortedTriples df).filter (fun t => t.1 == ct) = [] := by
    refine List.filter_eq_nil_iff.mpr ?_
    intro t ht
    obtain ⟨r, hr, rfl⟩ := List.mem_map.mp ((mem_sortedTriples_iff df t).mp ht)
    simpa [toTriple, beq_iff_eq] using h r hr
  rw [hfil]
  rfl

/-! ## Claim theorems -/

/-- C3, counterexample: the claim says every rank outside [0, 15] fails
with an out-of-range error, but Python list indexing wraps negative
indices: COLOR_PALETTE[-1] is "gray", not an error. -/
theorem spec_C3_counterexample :
    color_for_rank (-1) = Except.ok ("gray") ∧
    ¬ (∀ r : Int, (r < 0 ∨ 15 < r) → ∃ e, color_for_rank r = Except.error e) := by
  refine ⟨by decide, ?_⟩
  intro h
  obtain ⟨e, he⟩ := h (-1) (Or.inl (by omega))
  rw [show color_for_rank (-1) = Except.ok ("gray") from by decide] at he
  exact Except.noConfusion he

/-- C3, amended: for r in [0, 15] the marker-color lookup returns a
defined palette color; for r ≥ 16 or r < -16 it fails deterministically
with an IndexError; for r in [-16, -1] Python's negative indexing wraps
around and returns the palette entry at 16 + r instead of failing. -/
theorem spec_C3_amended (r : Int) :
    ((0 ≤ r ∧ r ≤ 15) → ∃ c, c ∈ COLOR_PALETTE ∧ color_for_rank r = Except.ok c) ∧
    ((16 ≤ r ∨ r < -16) →
      color_for_rank r = Except.error ("IndexError: list index out of range")) ∧
    ((-16 ≤ r ∧ r < 0) → color_for_rank r = color_for_rank (r + 16) ∧
      ∃ c, c ∈ COLOR_PALETTE ∧ color_for_rank r = Except.ok c) := by
  refine ⟨?_, ?_, ?_⟩
  · rintro ⟨h0, h1⟩
    exact ⟨paletteAt r.toNat, paletteAt_mem _ (by omega),
      color_for_rank_of_nonneg r h0 (by omega)⟩
  · rintro (h | h)
    · exact color_for_rank_error_of_ge r h
    · exact color_for_rank_error_of_lt r h
  · rintro ⟨h0, h1⟩
    refine ⟨color_for_rank_wrap r h0 h1, ?_⟩
    rw [color_for_rank_wrap r h0 h1]
    exact ⟨paletteAt (r + 16).toNat, paletteAt_mem _ (by omega),
      color_for_rank_of_nonneg _ (by omega) (by omega)⟩

theorem spec_C3_amended_witness :
    (∃ c, c ∈ COLOR_PALETTE ∧ color_for_rank 5 = Except.ok c) ∧
    color_for_rank 99 = Except.error ("IndexError: list index out of range") ∧
    (color_for_rank (-3) = color_for_rank (-3 + 16) ∧
      ∃ c, c ∈ COLOR_PALETTE ∧ color_for_rank (-3) = Except.ok c) :=
  ⟨(spec_C3_amended 5).1 (by decide),
   (spec_C3_amended 99).2.1 (Or.inl (by decide)),
   (spec_C3_amended (-3)).2.2 (by decide)⟩

/-- C4: the sort in _get_sorted_cluster_ids is stable — restricting the
sorted triple table to any fixed (cluster_type, cluster_rank) tie class
yields exactly the deduplicated rows of that class in their original
encounter order. -/
theorem spec_C4 (df : List Record) (ty : String) (r : Int) :
    (sortedTriples df).filter (fun t => t.1 == ty && t.2.2 == r) =
      (dedupTriples df).filter (fun t => t.1 == ty && t.2.2 == r) := by
  unfold sortedTriples
  refine filter_insertionSort _ ?_ _
  intro a b ha hb
  rw [Bool.and_eq_true, beq_iff_eq, beq_iff_eq] at ha hb
  exact tripleLE_of_eq_keys (ha.1.trans hb.1.symm) (ha.2.trans hb.2.symm)

/-- C5: with a non-empty cluster_id selection, the rows display_map keeps
are a subset of the rows kept with no cluster_id filter. -/
theorem spec_C5 (df : List Record) (ct : String) (sel : List String)
    (_hsel : sel ≠ []) :
    display_map_sites df ct (some sel) ⊆ display_map_sites df ct none :=
  display_map_sites_subset df ct sel

theorem spec_C5_witness :
    ["1"] ≠ ([] : List String) ∧
    display_map_sites [rowA1, rowA2] "A" (some ["1"]) ⊆
      display_map_sites [rowA1, rowA2] "A" none :=
  ⟨by decide, spec_C5 [rowA1, rowA2] "A" ["1"] (by decide)⟩

/-- C7: a cluster_type matching no record yields an empty cluster id
sequence and a map with zero markers, with no error from either
operation. -/
theorem spec_C7 (df : List Record) (ct : String) (sel : Option (List String))
    (h : ∀ r ∈ df, r.cluster_type ≠ ct) :
    _get_sorted_cluster_ids df ct = [] ∧ display_map df ct sel = Except.ok [] := by
  refine ⟨sorted_ids_nil_of_no_match df ct h, ?_⟩
  rw [display_map, display_map_sites_nil_of_no_match df ct sel h]
  rfl

theorem spec_C7_witness :
    _get_sorted_cluster_ids [rowA1, rowA2] "Z" = [] ∧
    display_map [rowA1, rowA2] "Z" none = Except.ok [] :=
  spec_C7 [rowA1, rowA2] "Z" none (by decide)

/-- C9: an empty cluster_id selection is falsy in Python, so the
cluster_id filter is skipped entirely: the rendered set equals the full
geolocated selection of the cluster_type, exactly as with no selection. -/
theorem spec_C9 (df : List Record) (ct : String) :
    display_map_sites df ct (some []) =
      (df.filter (fun r => !r.longitude.isNone)).filter
        (fun r => r.cluster_type == ct) ∧
    display_map_sites df ct none =
      (df.filter (fun r => !r.longitude.isNone)).filter
        (fun r => r.cluster_type == ct) :=
  ⟨rfl, rfl⟩

/-- C6: a record with missing longitude is never among the rows
display_map renders, yet its cluster_id still appears in
_get_sorted_cluster_ids, whose result does not depend on coordinates at
all. -/
theorem spec_C6 (df : List Record) (rec : Record) (sel : Option (List String))
    (f : Record → Record) (h1 : rec ∈ df) (h2 : rec.longitude = none)
    (hf : ∀ s, toTriple (f s) = toTriple s) :
    rec ∉ display_map_sites df rec.cluster_type sel ∧
    rec.cluster_id ∈ _get_sorted_cluster_ids df rec.cluster_type ∧
    _get_sorted_cluster_ids (df.map f) rec.cluster_type =
      _get_sorted_cluster_ids df rec.cluster_type := by
  refine ⟨?_, ?_, ?_⟩
  · intro hmem
    exact (mem_display_map_sites df _ sel rec hmem).2.1 h2
  · exact (mem_sorted_cluster_ids df _ _).mpr ⟨rec, h1, rfl, rfl⟩
  · have hmap : (df.map f).map toTriple = df.map toTriple := by
      rw [List.map_map]
      exact List.map_congr_left (fun a _ => hf a)
    unfold _get_sorted_cluster_ids sortedTriples dedupTriples
    rw [hmap]

theorem spec_C6_witness :
    rowNoGeo ∉ display_map_sites [rowA1, rowNoGeo] rowNoGeo.cluster_type none ∧
    rowNoGeo.cluster_id ∈ _get_sorted_cluster_ids [rowA1, rowNoGeo] rowNoGeo.cluster_type ∧
    _get_sorted_cluster_ids
        ([rowA1, rowNoGeo].map (fun s => { s with longitude := some 7 }))
        rowNoGeo.cluster_type =
      _get_sorted_cluster_ids [rowA1, rowNoGeo] rowNoGeo.cluster_type :=
  spec_C6 [rowA1, rowNoGeo] rowNoGeo none (fun s => { s with longitude := some 7 })
    (by decide) rfl (fun s => rfl)

/-- C8: the image lookup is the fixed mapping img_mapping; a mapped
cluster_type yields its image path under img/ verbatim, and an unmapped
cluster_type raises a KeyError rather than being skipped or defaulted. -/
theorem spec_C8 (ct : String) :
    (∀ path, (ct, path) ∈ img_mapping →
      display_resumes ct = Except.ok ("img/" ++ path)) ∧
    ((∀ p ∈ img_mapping, p.1 ≠ ct) → ∃ e, display_resumes ct = Except.error e) := by
  constructor
  · intro path hmem
    simp only [img_mapping, List.mem_singleton, Prod.mk.injEq] at hmem
    obtain ⟨h1, h2⟩ := hmem
    subst h1
    subst h2
    decide
  · intro h
    have hbeq : (("normalized time-series kmeans" : String) == ct) = false := by
      rw [beq_eq_false_iff_ne]
      exact h ("normalized time-series kmeans", "cluster_plots.png")
        (by simp [img_mapping])
    refine ⟨"KeyError: " ++ ct, ?_⟩
    simp [display_resumes, img_mapping, List.find?, hbeq]

theorem spec_C8_witness :
    display_resumes "normalized time-series kmeans" =
      Except.ok ("img/" ++ "cluster_plots.png") ∧
    (∃ e, display_resumes "Z" = Except.error e) :=
  ⟨(spec_C8 "normalized time-series kmeans").1 "cluster_plots.png" (by decide),
   (spec_C8 "Z").2 (by decide)⟩

/-- C1: whenever some record matches the cluster_type and cluster_rank is
a function of the cluster_id among those records, _get_sorted_cluster_ids
returns a non-empty duplicate-free sequence containing exactly the
cluster ids of that cluster_type, in non-decreasing cluster_rank order;
and on the two worked rows of the specification it returns ["2", "1"]. -/
theorem spec_C1 :
    (∀ (df : List Record) (ct : String) (rk : String → Int),
      (∃ r ∈ df, r.cluster_type = ct) →
      (∀ r ∈ df, r.cluster_type = ct → r.cluster_rank = rk r.cluster_id) →
      _get_sorted_cluster_ids df ct ≠ [] ∧
      (_get_sorted_cluster_ids df ct).Nodup ∧
      (∀ i, i ∈ _get_sorted_cluster_ids df ct ↔
        ∃ r ∈ df, r.cluster_type = ct ∧ r.cluster_id = i) ∧
      ((_get_sorted_cluster_ids df ct).map rk).Pairwise (· ≤ ·)) ∧
    _get_sorted_cluster_ids [rowA1, rowA2] "A" = ["2", "1"] := by
  constructor
  · intro df ct rk hne hrk
    have hmem : ∀ i, i ∈ _get_sorted_cluster_ids df ct ↔
        ∃ r ∈ df, r.cluster_type = ct ∧ r.cluster_id = i :=
      fun i => mem_sorted_cluster_ids df ct i
    refine ⟨?_, nodup_sorted_cluster_ids df ct, hmem, ?_⟩
    · obtain ⟨r0, hr0, hty0⟩ := hne
      intro hnil
      have : r0.cluster_id ∈ _get_sorted_cluster_ids df ct :=
        (hmem r0.cluster_id).mpr ⟨r0, hr0, hty0, rfl⟩
      rw [hnil] at this
      exact List.not_mem_nil _ this
    · have key : ∀ p ∈ clusterTable df ct, rk p.1 = p.2 := by
        intro p hp
        obtain ⟨r, hr, hty, hid, hrank⟩ := mem_clusterTable df ct p hp
        rw [hid, hrank]
        exact (hrk r hr hty).symm
      have hpair : (clusterTable df ct).Pairwise (fun p q => rk p.1 ≤ rk q.1) := by
        refine (clusterTable_rank_sorted df ct).imp_of_mem ?_
        intro p q hp hq hle
        rw [key p hp, key q hq]
        exact hle
      rw [← clusterTable_map_fst, List.map_map]
      exact List.pairwise_map.mpr hpair
  · decide

theorem spec_C1_witness :
    _get_sorted_cluster_ids [rowA1, rowA2] "A" ≠ [] ∧
    (_get_sorted_cluster_ids [rowA1, rowA2] "A").Nodup ∧
    (∀ i, i ∈ _get_sorted_cluster_ids [rowA1, rowA2] "A" ↔
      ∃ r ∈ [rowA1, rowA2], r.cluster_type = "A" ∧ r.cluster_id = i) ∧
    ((_get_sorted_cluster_ids [rowA1, rowA2] "A").map
      (fun i => if i == "1" then (2:Int) else 0)).Pairwise (· ≤ ·) :=
  spec_C1.1 [rowA1, rowA2] "A" (fun i => if i == "1" then (2:Int) else 0)
    ⟨rowA1, by decide, rfl⟩
    (by
      intro r hr _
      rcases List.mem_cons.mp hr with rfl | hr2
      · rfl
      · rcases List.mem_cons.mp hr2 with rfl | hr3
        · rfl
        · exact absurd hr3 (List.not_mem_nil r))

/-- C10: if every rank lies in [0, 15] and ranks identify clusters within
the cluster_type, the sorted id sequence has at most 16 entries, so the
legend's positional palette indexing stays in bounds and display_legend
succeeds. -/
theorem spec_C10 (df : List Record) (ct : String) (rk : String → Int)
    (hrk : ∀ r ∈ df, r.cluster_type = ct → r.cluster_rank = rk r.cluster_id)
    (hinj : ∀ r s, r ∈ df → s ∈ df → r.cluster_type = ct → s.cluster_type = ct →
      r.cluster_id ≠ s.cluster_id → rk r.cluster_id ≠ rk s.cluster_id)
    (hrange : ∀ r ∈ df, 0 ≤ r.cluster_rank ∧ r.cluster_rank ≤ 15) :
    (_get_sorted_cluster_ids df ct).length ≤ 16 ∧
    ∃ entries, display_legend df ct = Except.ok entries := by
  have hnd : (_get_sorted_cluster_ids df ct).Nodup := nodup_sorted_cluster_ids df ct
  have hmapnd : ((_get_sorted_cluster_ids df ct).map rk).Nodup := by
    refine hnd.map_on ?_
    intro x hx y hy hxy
    obtain ⟨rx, hrx, hrtx, hridx⟩ := (mem_sorted_cluster_ids df ct x).mp hx
    obtain ⟨ry, hry, hrty, hridy⟩ := (mem_sorted_cluster_ids df ct y).mp hy
    by_contra hne
    have hids : rx.cluster_id ≠ ry.cluster_id := by
      rw [hridx, hridy]
      exact hne
    have hrks := hinj rx ry hrx hry hrtx hrty hids
    rw [hridx, hridy] at hrks
    exact hrks hxy
  have hsubset : ((_get_sorted_cluster_ids df ct).map rk).toFinset ⊆
      Finset.Icc (0:Int) 15 := by
    intro v hv
    obtain ⟨x, hx, rfl⟩ := List.mem_map.mp (List.mem_toFinset.mp hv)
    obtain ⟨r, hr, hrt, hrid⟩ := (mem_sorted_cluster_ids df ct x).mp hx
    rw [Finset.mem_Icc, ← hrid, ← hrk r hr hrt]
    exact hrange r hr
  have hlen : (_get_sorted_cluster_ids df ct).length ≤ 16 := by
    have hcard := Finset.card_le_card hsubset
    rw [List.toFinset_card_of_nodup hmapnd, List.length_map] at hcard
    have hicc : (Finset.Icc (0:Int) 15).card = 16 := by
      rw [Int.card_Icc]
      rfl
    omega
  obtain ⟨entries, hok, _, _⟩ :=
    display_legend_loop_ok (_get_sorted_cluster_ids df ct) 0 (by omega)
  exact ⟨hlen, entries, hok⟩

theorem spec_C10_witness :
    (_get_sorted_cluster_ids [rowA1, rowA2] "A").length ≤ 16 ∧
    ∃ entries, display_legend [rowA1, rowA2] "A" = Except.ok entries :=
  spec_C10 [rowA1, rowA2] "A" (fun i => if i == "1" then (2:Int) else 0)
    (by
      intro r hr _
      rcases List.mem_cons.mp hr with rfl | hr2
      · rfl
      · rcases List.mem_cons.mp hr2 with rfl | hr3
        · rfl
        · exact absurd hr3 (List.not_mem_nil r))
    (by
      intro r s hr hs _ _ hne
      fin_cases hr <;> fin_cases hs <;> first
        | exact absurd rfl hne
        | decide)
    (by decide)

/-- C2: legend swatches are colored by position in sort order while map
markers are colored by the rank value itself.  Under the data invariant
(distinct in-range ranks), the cluster table is rank-sorted, the legend
renders, and: if the rank sequence is not exactly 0..n-1 some cluster's
legend color differs from its marker color, while if it is exactly
0..n-1 every cluster's legend color equals its marker color. -/
theorem spec_C2 (df : List Record) (ct : String)
    (hnd : ((clusterTable df ct).map Prod.snd).Nodup)
    (hrange : ∀ p ∈ clusterTable df ct, 0 ≤ p.2 ∧ p.2 < 16) :
    (clusterTable df ct).Pairwise (fun p q => p.2 ≤ q.2) ∧
    ∃ entries, display_legend df ct = Except.ok entries ∧
      entries.length = (clusterTable df ct).length ∧
      (((clusterTable df ct).map Prod.snd ≠
          (List.range (clusterTable df ct).length).map Int.ofNat) →
        ∃ j, ∃ hj : j < (clusterTable df ct).length, ∃ he : j < entries.length,
          Except.ok (entries.get ⟨j, he⟩).1 ≠
            color_for_rank ((clusterTable df ct).get ⟨j, hj⟩).2) ∧
      (((clusterTable df ct).map Prod.snd =
          (List.range (clusterTable df ct).length).map Int.ofNat) →
        ∀ j (hj : j < (clusterTable df ct).length) (he : j < entries.length),
          Except.ok (entries.get ⟨j, he⟩).1 =
            color_for_rank ((clusterTable df ct).get ⟨j, hj⟩).2) := by
  refine ⟨clusterTable_rank_sorted df ct, ?_⟩
  have hsubset : ((clusterTable df ct).map Prod.snd).toFinset ⊆
      Finset.Icc (0:Int) 15 := by
    intro v hv
    obtain ⟨p, hp, rfl⟩ := List.mem_map.mp (List.mem_toFinset.mp hv)
    have hpr := hrange p hp
    rw [Finset.mem_Icc]
    omega
  have hlenT : (clusterTable df ct).length ≤ 16 := by
    have hcard := Finset.card_le_card hsubset
    rw [List.toFinset_card_of_nodup hnd, List.length_map] at hcard
    have hicc : (Finset.Icc (0:Int) 15).card = 16 := by
      rw [Int.card_Icc]
      rfl
    omega
  have hidslen : (_get_sorted_cluster_ids df ct).length =
      (clusterTable df ct).length := by
    rw [← clusterTable_map_fst, List.length_map]
  obtain ⟨entries, hok, hlen, hget⟩ :=
    display_legend_loop_ok (_get_sorted_cluster_ids df ct) 0 (by omega)
  have hposcolor : ∀ j (he : j < entries.length),
      (entries.get ⟨j, he⟩).1 = paletteAt j := by
    intro j he
    have hj2 : j < (_get_sorted_cluster_ids df ct).length := by omega
    obtain ⟨he2, hval⟩ := hget j hj2
    rw [hval]
    simp
  have hrankcolor : ∀ j (hj : j < (clusterTable df ct).length),
      color_for_rank ((clusterTable df ct).get ⟨j, hj⟩).2 =
        Except.ok (paletteAt ((clusterTable df ct).get ⟨j, hj⟩).2.toNat) := by
    intro j hj
    have hmem := List.get_mem (clusterTable df ct) j hj
    have hr := hrange _ hmem
    exact color_for_rank_of_nonneg _ hr.1 hr.2
  refine ⟨entries, hok, by omega, ?_, ?_⟩
  · intro hneq
    have hmis : ∃ j, ∃ hj : j < (clusterTable df ct).length,
        ((clusterTable df ct).get ⟨j, hj⟩).2 ≠ Int.ofNat j := by
      by_contra hno
      push_neg at hno
      apply hneq
      refine List.ext_get (by simp) ?_
      intro n h1 h2
      have hn : n < (clusterTable df ct).length := by simpa using h1
      have := hno n hn
      simp only [List.get_eq_getElem, List.getElem_map, List.getElem_range]
      simpa using this
    obtain ⟨j, hj, hne⟩ := hmis
    have he : j < entries.length := by omega
    refine ⟨j, hj, he, ?_⟩
    rw [hposcolor j he, hrankcolor j hj]
    intro hcontra
    have hpal : paletteAt j = paletteAt ((clusterTable df ct).get ⟨j, hj⟩).2.toNat :=
      Except.ok.inj hcontra
    have hr := hrange _ (List.get_mem (clusterTable df ct) j hj)
    have hjr := paletteAt_inj j _ (by omega) (by omega) hpal
    apply hne
    rw [congrArg Int.ofNat hjr]
    exact (Int.toNat_of_nonneg hr.1).symm
  · intro heq j hj he
    have hrankj : ((clusterTable df ct).get ⟨j, hj⟩).2 = Int.ofNat j := by
      have h1 := List.get_of_eq heq ⟨j, by simpa using hj⟩
      simp only [List.get_eq_getElem, List.getElem_map, List.getElem_range] at h1
      simpa using h1
    rw [hposcolor j he, hrankcolor j hj, hrankj]
    simp

theorem spec_C2_witness :
    (clusterTable [rowB0, rowB5, rowB7] "B").Pairwise (fun p q => p.2 ≤ q.2) ∧
    ∃ entries, display_legend [rowB0, rowB5, rowB7] "B" = Except.ok entries ∧
      entries.length = (clusterTable [rowB0, rowB5, rowB7] "B").length ∧
      (((clusterTable [rowB0, rowB5, rowB7] "B").map Prod.snd ≠
          (List.range (clusterTable [rowB0, rowB5, rowB7] "B").length).map Int.ofNat) →
        ∃ j, ∃ hj : j < (clusterTable [rowB0, rowB5, rowB7] "B").length,
          ∃ he : j < entries.length,
          Except.ok (entries.get ⟨j, he⟩).1 ≠
            color_for_rank ((clusterTable [rowB0, rowB5, rowB7] "B").get ⟨j, hj⟩).2) ∧
      (((clusterTable [rowB0, rowB5, rowB7] "B").map Prod.snd =
          (List.range (clusterTable [rowB0, rowB5, rowB7] "B").length).map Int.ofNat) →
        ∀ j (hj : j < (clusterTable [rowB0, rowB5, rowB7] "B").length)
          (he : j < entries.length),
          Except.ok (entries.get ⟨j, he⟩).1 =
            color_for_rank ((clusterTable [rowB0, rowB5, rowB7] "B").get ⟨j, hj⟩).2) :=
  spec_C2 [rowB0, rowB5, rowB7] "B" (by decide) (by decide)
